import Mathlib

set_option maxHeartbeats 1000000

/-!
Verification of the smart-flo call-transcription pipeline (Go, single file).
The Go source is embedded shallowly: strings become lists of characters,
the response parser becomes a fold over the split lines, and the pipeline
orchestrator becomes a pure function of an environment record that supplies
the outcomes of the external effects (database reads, HTTP fetch, AI calls,
persistence).
-/

/-- Go strings are modelled as lists of characters. -/
abbrev GoStr := List Char

/-- ASCII fragment of Go unicode.IsSpace, as consulted by strings.TrimSpace. -/
def isSpace (c : Char) : Bool :=
  c = ' ' || c = '\t' || c = '\n' || c = '\x0b' || c = '\x0c' || c = '\r'

/-- Leading-whitespace removal (left half of strings.TrimSpace). -/
def trimLeft (s : GoStr) : GoStr := s.dropWhile isSpace

/-- Trailing-whitespace removal (right half of strings.TrimSpace). -/
def trimRight (s : GoStr) : GoStr := s.rdropWhile isSpace

/-- strings.TrimSpace. -/
def trimSpace (s : GoStr) : GoStr := trimRight (trimLeft s)

/-- strings.Split(s, sep) for a one-character separator; the source only
splits on a newline (src/unnamed/part_000:455). -/
def splitOnChar (sep : Char) : GoStr → List GoStr
  | [] => [[]]
  | c :: rest =>
    if c = sep then [] :: splitOnChar sep rest
    else
      match splitOnChar sep rest with
      | [] => [[c]]
      | l :: ls => (c :: l) :: ls

/-- The piece before and the piece after the first occurrence of sep, if any. -/
def splitFirst (sep : Char) : GoStr → Option (GoStr × GoStr)
  | [] => none
  | c :: rest =>
    if c = sep then some ([], rest)
    else
      match splitFirst sep rest with
      | none => none
      | some (a, b) => some (c :: a, b)

/-- strings.SplitN(s, sep, 2) for a one-character separator (the source splits
on a colon, src/unnamed/part_000:466 and 487). -/
def splitN2 (sep : Char) (s : GoStr) : List GoStr :=
  match splitFirst sep s with
  | none => [s]
  | some (a, b) => [a, b]

/-- Numeric value of an ASCII digit (48 is the code of the zero digit). -/
def digitVal (c : Char) : Option Nat :=
  if 48 ≤ c.toNat ∧ c.toNat ≤ 57 then some (c.toNat - 48) else none

/-- Accumulating decimal parse; fails on the first non-digit character. -/
def parseDigitsAux : Nat → GoStr → Option Nat
  | acc, [] => some acc
  | acc, c :: rest =>
    match digitVal c with
    | some d => parseDigitsAux (acc * 10 + d) rest
    | none => none

/-- All-digit parse of a nonempty digit string. -/
def parseDigits : GoStr → Option Nat
  | [] => none
  | c :: rest => parseDigitsAux 0 (c :: rest)

/-- strconv.Atoi: an optional sign followed by decimal digits.  Overflow is not
modelled: the caller keeps only values between 1 and the number of questions,
so any value large enough to overflow is discarded under either reading. -/
def atoi (s : GoStr) : Option Int :=
  match s with
  | [] => none
  | c :: rest =>
    if c = '+' then (parseDigits rest).map (fun n => (n : Int))
    else if c = '-' then (parseDigits rest).map (fun n => -(n : Int))
    else (parseDigits (c :: rest)).map (fun n => (n : Int))

/-- strings.TrimPrefix. -/
def trimPrefixOf (pre s : GoStr) : GoStr :=
  if pre.isPrefixOf s then s.drop pre.length else s

/-- Assignment m[k] = v on a Go map, modelled as an association list with
unique keys: overwrite the entry if the key is present, append otherwise. -/
def mapInsert (m : List (GoStr × GoStr)) (k v : GoStr) : List (GoStr × GoStr) :=
  if m.any (fun p => p.1 == k) then
    m.map (fun p => if p.1 == k then (k, v) else p)
  else m ++ [(k, v)]

/-- State of the line loop of parseTranscriptionAndAnswers
(src/unnamed/part_000:452-457). -/
structure ParseState where
  inTranscription : Bool
  inAnswers : Bool
  transcription : GoStr
  answers : List (GoStr × GoStr)
deriving DecidableEq

/-- One iteration of the line loop of parseTranscriptionAndAnswers
(src/unnamed/part_000:459-501). -/
def parseStep (questionIDs : List GoStr) (st : ParseState) (rawLine : GoStr) :
    ParseState :=
  let line := trimSpace rawLine
  if ("TRANSCRIPTION:".toList).isPrefixOf line then
    let st := { st with inTranscription := true, inAnswers := false }
    match splitN2 ':' line with
    | [_, c1] => { st with transcription := trimSpace c1 }
    | _ => st
  else if ("ANSWERS:".toList).isPrefixOf line then
    { st with inTranscription := false, inAnswers := true }
  else
    let st :=
      if st.inTranscription ∧ line ≠ [] then
        { st with transcription :=
            if st.transcription ≠ [] then st.transcription ++ '\n' :: line
            else line }
      else st
    if st.inAnswers ∧ ("Answer ".toList).isPrefixOf line then
      match splitN2 ':' line with
      | [p0, p1] =>
        let answerNum := trimSpace p0
        let answer := trimSpace p1
        if ("Answer ".toList).isPrefixOf answerNum then
          let numStr := trimSpace (trimPrefixOf ("Answer".toList) answerNum)
          match atoi numStr with
          | some num =>
            if 0 < num ∧ num ≤ (questionIDs.length : Int) then
              match questionIDs.get? (num.toNat - 1) with
              | some qid => { st with answers := mapInsert st.answers qid answer }
              | none => st
            else st
          | none => st
        else st
      | _ => st
    else st

/-- parseTranscriptionAndAnswers (src/unnamed/part_000:451-504): split the raw
reply on newlines and run the line loop from the empty state. -/
def parseTranscriptionAndAnswers (responseText : GoStr) (questionIDs : List GoStr) :
    GoStr × List (GoStr × GoStr) :=
  let lines := splitOnChar '\n' responseText
  let final := lines.foldl (parseStep questionIDs) ⟨false, false, [], []⟩
  (final.transcription, final.answers)

/-- Newline-joining of a list of lines, used to state what the parser
accumulates in its transcription buffer. -/
def joinLines (sep : Char) : List GoStr → GoStr
  | [] => []
  | [l] => l
  | l :: ls => l ++ sep :: joinLines sep ls

example :
    parseTranscriptionAndAnswers
      ("TRANSCRIPTION:\nhello world\nANSWERS:\nAnswer 1: true\nAnswer 2: 42".toList)
      ["q1".toList, "q2".toList]
      = ("hello world".toList,
         [("q1".toList, "true".toList), ("q2".toList, "42".toList)]) := by
  decide

example :
    parseTranscriptionAndAnswers ("ANSWERS:\nAnswer 99: x".toList)
      ["q1".toList, "q2".toList] = ([], []) := by
  decide

example :
    parseTranscriptionAndAnswers ("ANSWERS:\nAnswer 1: a\nAnswer 1: b".toList)
      ["q1".toList, "q2".toList] = ([], [("q1".toList, "b".toList)]) := by
  decide

/-! ### Lemmas about the whitespace trimming helpers -/

theorem trimLeft_cons_of_space {c : Char} (s : GoStr) (h : isSpace c = true) :
    trimLeft (c :: s) = trimLeft s := by
  simp [trimLeft, List.dropWhile_cons, h]

theorem trimLeft_cons_of_not_space {c : Char} (s : GoStr) (h : isSpace c = false) :
    trimLeft (c :: s) = c :: s := by
  simp [trimLeft, List.dropWhile_cons, h]

theorem trimLeft_eq_nil_iff {s : GoStr} :
    trimLeft s = [] ↔ ∀ c ∈ s, isSpace c = true := by
  simp [trimLeft, List.dropWhile_eq_nil_iff]

theorem trimRight_eq_nil_iff {s : GoStr} :
    trimRight s = [] ↔ ∀ c ∈ s, isSpace c = true := by
  simp [trimRight, List.rdropWhile_eq_nil_iff]

theorem trimLeft_eq_self {s : GoStr} (h : ∀ c ∈ s, isSpace c = false) :
    trimLeft s = s := by
  cases s with
  | nil => rfl
  | cons c s => exact trimLeft_cons_of_not_space s (h c (List.mem_cons_self c s))

theorem trimRight_eq_self {s : GoStr} (h : ∀ c ∈ s, isSpace c = false) :
    trimRight s = s := by
  rw [trimRight, List.rdropWhile_eq_self_iff]
  intro hl
  have := h (s.getLast hl) (List.getLast_mem hl)
  simp [this]

theorem dropWhile_append_split (p : Char → Bool) (as bs : GoStr) :
    List.dropWhile p (as ++ bs) =
      if List.dropWhile p as = [] then List.dropWhile p bs
      else List.dropWhile p as ++ bs := by
  induction as with
  | nil => simp
  | cons a as ih =>
    by_cases h : p a = true
    · simpa [List.dropWhile_cons, h] using ih
    · simp [List.dropWhile_cons, h]

theorem trimLeft_append (xs ys : GoStr) :
    trimLeft (xs ++ ys) =
      if trimLeft xs = [] then trimLeft ys else trimLeft xs ++ ys := by
  simp only [trimLeft]
  exact dropWhile_append_split isSpace xs ys

theorem trimRight_append (xs ys : GoStr) :
    trimRight (xs ++ ys) =
      if trimRight ys = [] then trimRight xs else xs ++ trimRight ys := by
  simp only [trimRight, List.rdropWhile, List.reverse_append]
  rw [dropWhile_append_split]
  by_cases h : List.dropWhile isSpace ys.reverse = []
  · simp [h]
  · rw [if_neg h, if_neg (by simp [h]), List.reverse_append, List.reverse_reverse]

theorem trimRight_idem (s : GoStr) : trimRight (trimRight s) = trimRight s := by
  simp [trimRight, List.rdropWhile_idempotent]

theorem trimLeft_trimRight (s : GoStr) :
    trimLeft (trimRight s) = trimRight (trimLeft s) := by
  induction s using List.reverseRecOn with
  | nil => rfl
  | append_singleton xs x ih =>
    by_cases h : isSpace x = true
    · have hR : trimRight (xs ++ [x]) = trimRight xs := by
        simp only [trimRight]
        exact List.rdropWhile_concat_pos isSpace xs x (by simp [h])
      rw [hR, ih, trimLeft_append]
      by_cases h' : trimLeft xs = []
      · have : trimLeft [x] = ([] : GoStr) := by
          simp [trimLeft, List.dropWhile_cons, h]
        rw [if_pos h', this, h']
      · rw [if_neg h']
        simp only [trimRight]
        rw [List.rdropWhile_concat_pos isSpace (trimLeft xs) x (by simp [h])]
    · simp only [Bool.not_eq_true] at h
      have hR : trimRight (xs ++ [x]) = xs ++ [x] := by
        simp only [trimRight]
        exact List.rdropWhile_concat_neg isSpace xs x (by simp [h])
      rw [hR, trimLeft_append]
      by_cases h' : trimLeft xs = []
      · have hx : trimLeft [x] = ([x] : GoStr) := by
          simp [trimLeft, List.dropWhile_cons, h]
        rw [if_pos h', hx]
        simp only [trimRight]
        have : ([x] : GoStr) = [] ++ [x] := rfl
        rw [this, List.rdropWhile_concat_neg isSpace [] x (by simp [h])]
      · rw [if_neg h']
        simp only [trimRight]
        rw [List.rdropWhile_concat_neg isSpace (trimLeft xs) x (by simp [h])]

theorem trimSpace_nil : trimSpace [] = [] := rfl

theorem trimSpace_cons_of_space (c : Char) (s : GoStr) (h : isSpace c = true) :
    trimSpace (c :: s) = trimSpace s := by
  simp [trimSpace, trimLeft_cons_of_space s h]

theorem trimSpace_eq_nil_of_all_space {s : GoStr} (h : ∀ c ∈ s, isSpace c = true) :
    trimSpace s = [] := by
  have : trimLeft s = [] := trimLeft_eq_nil_iff.mpr h
  simp [trimSpace, this, trimRight, List.rdropWhile_nil]

theorem trimSpace_eq_self {s : GoStr} (h : ∀ c ∈ s, isSpace c = false) :
    trimSpace s = s := by
  simp [trimSpace, trimLeft_eq_self h, trimRight_eq_self h]

theorem trimSpace_trimRight (s : GoStr) :
    trimSpace (trimRight s) = trimSpace s := by
  simp only [trimSpace, trimLeft_trimRight, trimRight_idem]

theorem trimSpace_trimRight_nil {s : GoStr} (h : trimRight s = []) :
    trimSpace s = [] := by
  rw [← trimSpace_trimRight s, h, trimSpace_nil]

/-! ### Lemmas about the splitting helpers -/

theorem splitFirst_eq_none {sep : Char} {s : GoStr} (h : sep ∉ s) :
    splitFirst sep s = none := by
  induction s with
  | nil => rfl
  | cons c s ih =>
    have hc : ¬ c = sep := fun hc => h (hc ▸ List.mem_cons_self c s)
    have hs : sep ∉ s := fun hs => h (List.mem_cons_of_mem c hs)
    simp [splitFirst, hc, ih hs]

theorem splitFirst_append (sep : Char) (xs ys : GoStr) (h : sep ∉ xs) :
    splitFirst sep (xs ++ sep :: ys) = some (xs, ys) := by
  induction xs with
  | nil => simp [splitFirst]
  | cons c xs ih =>
    have hc : ¬ c = sep := fun hc => h (hc ▸ List.mem_cons_self c xs)
    have hxs : sep ∉ xs := fun hs => h (List.mem_cons_of_mem c hs)
    simp [splitFirst, hc, ih hxs]

theorem splitN2_no_sep {sep : Char} {s : GoStr} (h : sep ∉ s) :
    splitN2 sep s = [s] := by
  simp [splitN2, splitFirst_eq_none h]

theorem splitN2_append (sep : Char) (xs ys : GoStr) (h : sep ∉ xs) :
    splitN2 sep (xs ++ sep :: ys) = [xs, ys] := by
  simp [splitN2, splitFirst_append sep xs ys h]

theorem splitOnChar_no_sep {sep : Char} {s : GoStr} (h : sep ∉ s) :
    splitOnChar sep s = [s] := by
  induction s with
  | nil => rfl
  | cons c s ih =>
    have hc : ¬ c = sep := fun hc => h (hc ▸ List.mem_cons_self c s)
    have hs : sep ∉ s := fun hs => h (List.mem_cons_of_mem c hs)
    simp [splitOnChar, hc, ih hs]

theorem splitOnChar_append (sep : Char) (xs ys : GoStr) (h : sep ∉ xs) :
    splitOnChar sep (xs ++ sep :: ys) = xs :: splitOnChar sep ys := by
  induction xs with
  | nil => simp [splitOnChar]
  | cons c xs ih =>
    have hc : ¬ c = sep := fun hc => h (hc ▸ List.mem_cons_self c xs)
    have hxs : sep ∉ xs := fun hs => h (List.mem_cons_of_mem c hs)
    rcases h' : splitOnChar sep (xs ++ sep :: ys) with - | ⟨l, ls⟩
    · rw [ih hxs] at h'
      exact List.noConfusion h'
    · rw [ih hxs] at h'
      rw [List.cons.injEq] at h'
      simp [splitOnChar, hc, ih hxs]

theorem joinLines_cons_cons (sep : Char) (a b : GoStr) (t : List GoStr) :
    joinLines sep (a :: b :: t) = a ++ sep :: joinLines sep (b :: t) := rfl

theorem splitOnChar_joinLines {sep : Char} {L : List GoStr}
    (hL : ∀ l ∈ L, sep ∉ l) (hne : L ≠ []) :
    splitOnChar sep (joinLines sep L) = L := by
  induction L with
  | nil => exact absurd rfl hne
  | cons l ls ih =>
    cases ls with
    | nil => exact splitOnChar_no_sep (hL l (List.mem_cons_self l []))
    | cons l' ls' =>
      rw [joinLines_cons_cons]
      rw [splitOnChar_append sep l (joinLines sep (l' :: ls')) (hL l (List.mem_cons_self l _))]
      rw [ih (fun x hx => hL x (List.mem_cons_of_mem l hx)) (by simp)]

theorem joinLines_glue (x y : GoStr) (zs : List GoStr) :
    joinLines '\n' ((x ++ '\n' :: y) :: zs) = x ++ '\n' :: joinLines '\n' (y :: zs) := by
  cases zs with
  | nil => rfl
  | cons z zs => simp [joinLines_cons_cons, List.append_assoc]

/-! ### Character-class facts about atoi -/

theorem parseDigitsAux_chars {s : GoStr} :
    ∀ {acc n : Nat}, parseDigitsAux acc s = some n →
      ∀ c ∈ s, 48 ≤ c.toNat ∧ c.toNat ≤ 57 := by
  induction s with
  | nil => intro acc n _ c hc; exact absurd hc (List.not_mem_nil c)
  | cons c s ih =>
    intro acc n h d hd
    rcases hdv : digitVal c with - | v
    · rw [parseDigitsAux, hdv] at h
      exact Option.noConfusion h
    · rw [parseDigitsAux, hdv] at h
      have hc : 48 ≤ c.toNat ∧ c.toNat ≤ 57 := by
        by_contra hcon
        rw [digitVal, if_neg hcon] at hdv
        exact Option.noConfusion hdv
      rcases List.mem_cons.mp hd with rfl | hd'
      · exact hc
      · exact ih h d hd'

theorem parseDigits_chars {s : GoStr} {n : Nat} (h : parseDigits s = some n) :
    ∀ c ∈ s, 48 ≤ c.toNat ∧ c.toNat ≤ 57 := by
  cases s with
  | nil => exact Option.noConfusion h
  | cons c s => exact parseDigitsAux_chars h

theorem atoi_chars {s : GoStr} {k : Int} (h : atoi s = some k) :
    s ≠ [] ∧ ∀ c ∈ s, c = '+' ∨ c = '-' ∨ (48 ≤ c.toNat ∧ c.toNat ≤ 57) := by
  cases s with
  | nil => exact Option.noConfusion h
  | cons c s =>
    refine ⟨by simp, ?_⟩
    intro d hd
    by_cases hp : c = '+'
    · subst hp
      rw [atoi, if_pos rfl] at h
      rcases hpd : parseDigits s with - | m
      · rw [hpd] at h; exact Option.noConfusion h
      · rcases List.mem_cons.mp hd with rfl | hd'
        · exact Or.inl rfl
        · exact Or.inr (Or.inr (parseDigits_chars hpd d hd'))
    · by_cases hm : c = '-'
      · subst hm
        rw [atoi, if_neg hp, if_pos rfl] at h
        rcases hpd : parseDigits s with - | m
        · rw [hpd] at h; exact Option.noConfusion h
        · rcases List.mem_cons.mp hd with rfl | hd'
          · exact Or.inr (Or.inl rfl)
          · exact Or.inr (Or.inr (parseDigits_chars hpd d hd'))
      · rw [atoi, if_neg hp, if_neg hm] at h
        rcases hpd : parseDigits (c :: s) with - | m
        · rw [hpd] at h; exact Option.noConfusion h
        · exact Or.inr (Or.inr (parseDigits_chars hpd d hd))

theorem isSpace_eq_false_of_digit {c : Char} (h1 : 48 ≤ c.toNat) (h2 : c.toNat ≤ 57) :
    isSpace c = false := by
  simp only [isSpace, Bool.or_eq_false_iff, decide_eq_false_iff_not]
  refine ⟨⟨⟨⟨⟨?_, ?_⟩, ?_⟩, ?_⟩, ?_⟩, ?_⟩ <;>
    · rintro rfl
      revert h1 h2
      decide

theorem atoi_not_space {s : GoStr} {k : Int} (h : atoi s = some k) :
    ∀ c ∈ s, isSpace c = false := by
  intro c hc
  rcases (atoi_chars h).2 c hc with rfl | rfl | ⟨h1, h2⟩
  · rfl
  · rfl
  · exact isSpace_eq_false_of_digit h1 h2

theorem atoi_no_colon {s : GoStr} {k : Int} (h : atoi s = some k) : ':' ∉ s := by
  intro hmem
  rcases (atoi_chars h).2 ':' hmem with hc | hc | ⟨h1, h2⟩
  · exact absurd hc (by decide)
  · exact absurd hc (by decide)
  · revert h2; decide

theorem atoi_no_nl {s : GoStr} {k : Int} (h : atoi s = some k) : '\n' ∉ s := by
  intro hmem
  have := atoi_not_space h '\n' hmem
  exact absurd this (by decide)

/-! ### Facts about isPrefixOf and the literal markers -/

theorem isPrefixOf_append_self (xs ys : GoStr) : xs.isPrefixOf (xs ++ ys) = true := by
  rw [List.isPrefixOf_iff_prefix]
  exact List.prefix_append xs ys

theorem trimSpace_eq_trimRight_of_head {c : Char} (s : GoStr) (h : isSpace c = false) :
    trimSpace (c :: s) = trimRight (c :: s) := by
  simp [trimSpace, trimLeft_cons_of_not_space s h]

theorem trimSpace_transcription_tail (tail : GoStr) :
    trimSpace ("TRANSCRIPTION:".toList ++ tail)
      = "TRANSCRIPTION:".toList ++ trimRight tail := by
  have h1 : trimSpace ("TRANSCRIPTION:".toList ++ tail)
      = trimRight ("TRANSCRIPTION:".toList ++ tail) :=
    trimSpace_eq_trimRight_of_head ("RANSCRIPTION:".toList ++ tail) (by decide)
  rw [h1, trimRight_append]
  by_cases h : trimRight tail = []
  · rw [if_pos h, h, List.append_nil]
    decide
  · rw [if_neg h]

theorem splitN2_colon_transcription (r : GoStr) :
    splitN2 ':' ("TRANSCRIPTION:".toList ++ r) = ["TRANSCRIPTION".toList, r] :=
  splitN2_append ':' ("TRANSCRIPTION".toList) r (by decide)

/-! ### Behaviour of parseStep on each kind of line -/

theorem parseStep_transcription_marker (q : List GoStr) (st : ParseState) (tail : GoStr) :
    parseStep q st ("TRANSCRIPTION:".toList ++ tail)
      = { st with inTranscription := true, inAnswers := false,
                  transcription := trimSpace tail } := by
  have hpre : ("TRANSCRIPTION:".toList).isPrefixOf
      ("TRANSCRIPTION:".toList ++ trimRight tail) = true :=
    isPrefixOf_append_self _ _
  simp only [parseStep, trimSpace_transcription_tail, hpre, if_true,
    splitN2_colon_transcription, trimSpace_trimRight]

theorem parseStep_transcription_marker_plain (q : List GoStr) (st : ParseState) :
    parseStep q st ("TRANSCRIPTION:".toList)
      = { st with inTranscription := true, inAnswers := false,
                  transcription := [] } := by
  have := parseStep_transcription_marker q st []
  simpa using this

theorem parseStep_answers_marker (q : List GoStr) (st : ParseState) :
    parseStep q st ("ANSWERS:".toList)
      = { st with inTranscription := false, inAnswers := true } := by
  have h0 : trimSpace ("ANSWERS:".toList) = "ANSWERS:".toList := by decide
  have h1 : ("TRANSCRIPTION:".toList).isPrefixOf ("ANSWERS:".toList) = false := by decide
  have h2 : ("ANSWERS:".toList).isPrefixOf ("ANSWERS:".toList) = true := by decide
  simp only [parseStep, h0, h1, h2, Bool.false_eq_true, if_false, if_true]

/-- Appending one trimmed line to the transcription buffer, exactly as the loop
body does at src/unnamed/part_000:478-483. -/
def appendLine (acc line : GoStr) : GoStr :=
  if line ≠ [] then (if acc ≠ [] then acc ++ '\n' :: line else line) else acc

theorem parseStep_capture_line (q : List GoStr) (st : ParseState) (raw : GoStr)
    (hT : ("TRANSCRIPTION:".toList).isPrefixOf (trimSpace raw) = false)
    (hA : ("ANSWERS:".toList).isPrefixOf (trimSpace raw) = false)
    (hin : st.inTranscription = true) (hans : st.inAnswers = false) :
    parseStep q st raw
      = { st with transcription := appendLine st.transcription (trimSpace raw) } := by
  obtain ⟨bT, bA, tr, ans⟩ := st
  replace hin : bT = true := hin
  replace hans : bA = false := hans
  subst hin
  subst hans
  simp only [parseStep]
  generalize hl : trimSpace raw = line at hT hA ⊢
  rw [if_neg (fun h' => Bool.false_ne_true (hT.symm.trans h'))]
  rw [if_neg (fun h' => Bool.false_ne_true (hA.symm.trans h'))]
  by_cases hne : line = []
  · simp [hne, appendLine]
  · simp [hne, appendLine]

/-! ### Shape of a trimmed Answer line -/

theorem trimSpace_answer_line (numStr text : GoStr) :
    ∃ rest : GoStr,
      trimSpace ("Answer ".toList ++ numStr ++ ": ".toList ++ text)
        = ("Answer ".toList ++ numStr) ++ ':' :: rest
      ∧ trimSpace rest = trimSpace text := by
  have h1 : trimSpace ("Answer ".toList ++ numStr ++ ": ".toList ++ text)
      = trimRight ("Answer ".toList ++ numStr ++ ": ".toList ++ text) := by
    show trimSpace ('A' :: ("nswer ".toList ++ numStr ++ ": ".toList ++ text))
        = trimRight ('A' :: ("nswer ".toList ++ numStr ++ ": ".toList ++ text))
    exact trimSpace_eq_trimRight_of_head _ (by decide)
  have hX : "Answer ".toList ++ numStr ++ ": ".toList ++ text
      = ("Answer ".toList ++ numStr ++ ": ".toList) ++ text := by
    simp [List.append_assoc]
  by_cases hcase : trimRight text = []
  · refine ⟨[], ?_, (trimSpace_trimRight_nil hcase).symm⟩
    rw [h1, hX, trimRight_append, if_pos hcase]
    have hY : "Answer ".toList ++ numStr ++ ": ".toList
        = ("Answer ".toList ++ numStr) ++ ": ".toList := by
      simp [List.append_assoc]
    rw [hY, trimRight_append]
    rw [if_neg (by decide)]
    rfl
  · refine ⟨' ' :: trimRight text, ?_, ?_⟩
    · rw [h1, hX, trimRight_append, if_neg hcase]
      simp [List.append_assoc]
    · rw [trimSpace_cons_of_space ' ' (trimRight text) (by decide), trimSpace_trimRight]

theorem trimSpace_answer_head (numStr : GoStr) (hne : numStr ≠ [])
    (hns : ∀ c ∈ numStr, isSpace c = false) :
    trimSpace ("Answer ".toList ++ numStr) = "Answer ".toList ++ numStr := by
  have h1 : trimSpace ("Answer ".toList ++ numStr)
      = trimRight ("Answer ".toList ++ numStr) := by
    show trimSpace ('A' :: ("nswer ".toList ++ numStr))
        = trimRight ('A' :: ("nswer ".toList ++ numStr))
    exact trimSpace_eq_trimRight_of_head _ (by decide)
  rw [h1, trimRight_append, trimRight_eq_self hns, if_neg hne]

theorem markerT_not_prefix_ans (z : GoStr) :
    ("TRANSCRIPTION:".toList).isPrefixOf ('A' :: z) = false := by
  show ('T' :: "RANSCRIPTION:".toList).isPrefixOf ('A' :: z) = false
  simp [List.isPrefixOf]

theorem markerA_not_prefix_ans (z : GoStr) :
    ("ANSWERS:".toList).isPrefixOf ('A' :: 'n' :: z) = false := by
  show ('A' :: 'N' :: "SWERS:".toList).isPrefixOf ('A' :: 'n' :: z) = false
  simp [List.isPrefixOf]

theorem trimPrefixOf_answer (numStr : GoStr) :
    trimPrefixOf ("Answer".toList) ("Answer ".toList ++ numStr) = ' ' :: numStr := by
  unfold trimPrefixOf
  have hpre : ("Answer".toList).isPrefixOf ("Answer ".toList ++ numStr) = true :=
    isPrefixOf_append_self ("Answer".toList) (' ' :: numStr)
  rw [if_pos hpre]
  exact List.drop_left ("Answer".toList) (' ' :: numStr)

theorem get?_eq_some_getD (l : List GoStr) (n : Nat) (h : n < l.length) :
    l.get? n = some (l.getD n []) := by
  rw [List.getD_eq_get?, List.get?_eq_get h]
  rfl

theorem parseStep_answer_line (q : List GoStr) (st : ParseState)
    (numStr text : GoStr) (idx : Nat)
    (hA : st.inAnswers = true) (hT : st.inTranscription = false)
    (hatoi : atoi numStr = some (idx : Int)) (h1 : 1 ≤ idx) (h2 : idx ≤ q.length) :
    parseStep q st ("Answer ".toList ++ numStr ++ ": ".toList ++ text)
      = { st with answers :=
            mapInsert st.answers (q.getD (idx - 1) []) (trimSpace text) } := by
  obtain ⟨bT, bA, tr, ans⟩ := st
  replace hA : bA = true := hA
  replace hT : bT = false := hT
  subst hA
  subst hT
  have hnempty : numStr ≠ [] := (atoi_chars hatoi).1
  have hnosp : ∀ c ∈ numStr, isSpace c = false := atoi_not_space hatoi
  have hnocol : ':' ∉ numStr := atoi_no_colon hatoi
  obtain ⟨rest, hline, hrest⟩ := trimSpace_answer_line numStr text
  have hmT : ("TRANSCRIPTION:".toList).isPrefixOf
      (("Answer ".toList ++ numStr) ++ ':' :: rest) = false :=
    markerT_not_prefix_ans ("nswer ".toList ++ numStr ++ ':' :: rest)
  have hmA : ("ANSWERS:".toList).isPrefixOf
      (("Answer ".toList ++ numStr) ++ ':' :: rest) = false :=
    markerA_not_prefix_ans ("swer ".toList ++ numStr ++ ':' :: rest)
  have hpre : ("Answer ".toList).isPrefixOf
      (("Answer ".toList ++ numStr) ++ ':' :: rest) = true :=
    isPrefixOf_append_self ("Answer ".toList) (numStr ++ ':' :: rest)
  have hsplit : splitN2 ':' (("Answer ".toList ++ numStr) ++ ':' :: rest)
      = ["Answer ".toList ++ numStr, rest] := by
    refine splitN2_append ':' ("Answer ".toList ++ numStr) rest ?_
    intro hmem
    rcases List.mem_append.mp hmem with hc | hc
    · exact absurd hc (by decide)
    · exact hnocol hc
  have hpre2 : ("Answer ".toList).isPrefixOf ("Answer ".toList ++ numStr) = true :=
    isPrefixOf_append_self ("Answer ".toList) numStr
  have hguard : (0 : Int) < (idx : Int) ∧ (idx : Int) ≤ (q.length : Int) := by
    constructor
    · exact_mod_cast h1
    · exact_mod_cast h2
  have hlt : idx - 1 < q.length := by omega
  have hget : q.get? ((idx : Int).toNat - 1) = some (q.getD (idx - 1) []) := by
    rw [show ((idx : Int)).toNat = idx from rfl]
    exact get?_eq_some_getD q (idx - 1) hlt
  simp only [parseStep, hline]
  rw [if_neg (fun h' => Bool.false_ne_true (hmT.symm.trans h'))]
  rw [if_neg (fun h' => Bool.false_ne_true (hmA.symm.trans h'))]
  simp only [Bool.false_eq_true, false_and, if_false]
  rw [if_pos ⟨trivial, hpre⟩]
  rw [hsplit]
  simp only [trimSpace_answer_head numStr hnempty hnosp, hpre2, if_true,
    trimPrefixOf_answer, trimSpace_cons_of_space ' ' numStr (by decide),
    trimSpace_eq_self hnosp, hatoi, hget, hrest]
  rw [if_pos hguard]

/-! ### Folding the loop over whole sections of the reply -/

theorem foldl_capture_lines (q : List GoStr) (ts : List GoStr) :
    ∀ st : ParseState, st.inTranscription = true → st.inAnswers = false →
    (∀ t ∈ ts, ("TRANSCRIPTION:".toList).isPrefixOf (trimSpace t) = false
             ∧ ("ANSWERS:".toList).isPrefixOf (trimSpace t) = false) →
    List.foldl (parseStep q) st ts
      = { st with transcription :=
            List.foldl appendLine st.transcription (ts.map trimSpace) } := by
  induction ts with
  | nil => intro st h1 h2 h3; rfl
  | cons t ts ih =>
    intro st h1 h2 h3
    rw [List.foldl_cons,
      parseStep_capture_line q st t (h3 t (List.mem_cons_self t ts)).1
        (h3 t (List.mem_cons_self t ts)).2 h1 h2]
    rw [ih { st with transcription := appendLine st.transcription (trimSpace t) }
      h1 h2 (fun x hx => h3 x (List.mem_cons_of_mem t hx))]
    rw [List.map_cons, List.foldl_cons]

theorem foldl_appendLine (ls : List GoStr) :
    ∀ acc : GoStr, List.foldl appendLine acc ls
      = joinLines '\n' ((acc :: ls).filter (fun l => !l.isEmpty)) := by
  induction ls with
  | nil =>
    intro acc
    by_cases h : acc = []
    · subst h; rfl
    · rcases acc with - | ⟨c, cs⟩
      · exact absurd rfl h
      · rfl
  | cons l ls ih =>
    intro acc
    rw [List.foldl_cons, ih (appendLine acc l)]
    by_cases hl : l = []
    · subst hl
      rfl
    · by_cases hacc : acc = []
      · subst hacc
        have h1 : appendLine [] l = l := by simp [appendLine, hl]
        rw [h1]
        rcases l with - | ⟨c, cs⟩
        · exact absurd rfl hl
        · rfl
      · have h1 : appendLine acc l = acc ++ '\n' :: l := by simp [appendLine, hl, hacc]
        rw [h1]
        have hne1 : (acc ++ '\n' :: l).isEmpty = false := by
          rcases acc with - | ⟨c, cs⟩
          · exact absurd rfl hacc
          · rfl
        have hne2 : acc.isEmpty = false := by
          rcases acc with - | ⟨c, cs⟩
          · exact absurd rfl hacc
          · rfl
        have hne3 : l.isEmpty = false := by
          rcases l with - | ⟨c, cs⟩
          · exact absurd rfl hl
          · rfl
        rw [List.filter_cons, hne1, List.filter_cons, hne2, List.filter_cons, hne3]
        simp only [Bool.not_false, if_true]
        rw [joinLines_glue, joinLines_cons_cons]

/-- The payload of one well-formed Answer line: the numeric token, the index it
denotes, and the trailing answer text. -/
structure AnswerSpec where
  numStr : GoStr
  idx : Nat
  text : GoStr
deriving DecidableEq

/-- The reply line an AnswerSpec stands for. -/
def mkAnswerLine (p : AnswerSpec) : GoStr :=
  "Answer ".toList ++ p.numStr ++ ": ".toList ++ p.text

/-- What one well-formed Answer line contributes to the answers map. -/
def insertAnswer (q : List GoStr) (m : List (GoStr × GoStr)) (p : AnswerSpec) :
    List (GoStr × GoStr) :=
  mapInsert m (q.getD (p.idx - 1) []) (trimSpace p.text)

theorem foldl_answer_lines (q : List GoStr) (ps : List AnswerSpec) :
    ∀ st : ParseState, st.inAnswers = true → st.inTranscription = false →
    (∀ p ∈ ps, atoi p.numStr = some (p.idx : Int) ∧ 1 ≤ p.idx ∧ p.idx ≤ q.length) →
    List.foldl (parseStep q) st (ps.map mkAnswerLine)
      = { st with answers := List.foldl (insertAnswer q) st.answers ps } := by
  induction ps with
  | nil => intro st h1 h2 h3; rfl
  | cons p ps ih =>
    intro st h1 h2 h3
    obtain ⟨ha, hb, hc⟩ := h3 p (List.mem_cons_self p ps)
    rw [List.map_cons, List.foldl_cons]
    simp only [mkAnswerLine]
    rw [parseStep_answer_line q st p.numStr p.text p.idx h1 h2 ha hb hc]
    rw [ih { st with answers := mapInsert st.answers (q.getD (p.idx - 1) []) (trimSpace p.text) }
      h1 h2 (fun x hx => h3 x (List.mem_cons_of_mem p hx))]
    rw [List.foldl_cons]
    rfl

/-! ### The answers map built from distinct well-formed Answer lines -/

theorem mapInsert_of_not_mem_keys (m : List (GoStr × GoStr)) (k v : GoStr)
    (h : k ∉ m.map Prod.fst) : mapInsert m k v = m ++ [(k, v)] := by
  have hfalse : (m.any fun p => p.1 == k) = false := by
    by_contra hc
    rw [Bool.not_eq_false] at hc
    rcases List.any_eq_true.mp hc with ⟨p, hp, hbeq⟩
    exact h (List.mem_map.mpr ⟨p, hp, beq_iff_eq.mp hbeq⟩)
  unfold mapInsert
  rw [hfalse]
  simp

theorem foldl_insertAnswer_append (q : List GoStr) (ps : List AnswerSpec) :
    ∀ m : List (GoStr × GoStr),
      ((m ++ ps.map (fun p => (q.getD (p.idx - 1) [], trimSpace p.text))).map
        Prod.fst).Nodup →
      List.foldl (insertAnswer q) m ps
        = m ++ ps.map (fun p => (q.getD (p.idx - 1) [], trimSpace p.text)) := by
  induction ps with
  | nil => intro m h; simp
  | cons p ps ih =>
    intro m hnd
    rw [List.foldl_cons]
    have hnd0 := hnd
    simp only [List.map_cons, List.map_append] at hnd0
    rcases List.nodup_append.mp hnd0 with ⟨hndm, hndr, hdisj⟩
    have hk : q.getD (p.idx - 1) [] ∉ m.map Prod.fst := by
      intro hmem
      exact hdisj hmem (by simp)
    have hstep : insertAnswer q m p
        = m ++ [(q.getD (p.idx - 1) [], trimSpace p.text)] := by
      unfold insertAnswer
      exact mapInsert_of_not_mem_keys m _ _ hk
    rw [hstep]
    have hnd' : (((m ++ [(q.getD (p.idx - 1) [], trimSpace p.text)]) ++
        ps.map (fun p => (q.getD (p.idx - 1) [], trimSpace p.text))).map
          Prod.fst).Nodup := by
      rw [← List.append_cons]
      simpa only [List.map_cons] using hnd
    rw [ih (m ++ [(q.getD (p.idx - 1) [], trimSpace p.text)]) hnd']
    rw [← List.append_cons]
    simp [List.map_cons]

theorem getD_eq_get (l : List GoStr) (n : Nat) (h : n < l.length) :
    l.getD n [] = l.get ⟨n, h⟩ := by
  have h1 := get?_eq_some_getD l n h
  rw [List.get?_eq_get h] at h1
  exact (Option.some.inj h1).symm

theorem answerKeys_nodup (q : List GoStr) (hq : q.Nodup) (ps : List AnswerSpec)
    (hidx : (ps.map AnswerSpec.idx).Nodup)
    (hrange : ∀ p ∈ ps, 1 ≤ p.idx ∧ p.idx ≤ q.length) :
    ((ps.map (fun p => (q.getD (p.idx - 1) [], trimSpace p.text))).map
      Prod.fst).Nodup := by
  have hmap : (ps.map (fun p => (q.getD (p.idx - 1) [], trimSpace p.text))).map
      Prod.fst = ps.map (fun p => q.getD (p.idx - 1) []) := by
    rw [List.map_map]
    rfl
  rw [hmap]
  have hinj := List.inj_on_of_nodup_map hidx
  refine List.Nodup.map_on ?_ (List.Nodup.of_map AnswerSpec.idx hidx)
  intro x hx y hy hEq
  obtain ⟨hx1, hx2⟩ := hrange x hx
  obtain ⟨hy1, hy2⟩ := hrange y hy
  have hxlt : x.idx - 1 < q.length := by omega
  have hylt : y.idx - 1 < q.length := by omega
  rw [getD_eq_get q _ hxlt, getD_eq_get q _ hylt] at hEq
  have hfin := (List.Nodup.get_inj_iff hq).mp hEq
  have hval : x.idx - 1 = y.idx - 1 := congrArg Fin.val hfin
  have hidxeq : x.idx = y.idx := by omega
  exact hinj hx hy hidxeq

/-- A reply of the canonical well-formed shape: a TRANSCRIPTION: marker line,
the transcription lines, an ANSWERS: marker line, then the Answer lines. -/
def mkReply (tLines : List GoStr) (ps : List AnswerSpec) : GoStr :=
  joinLines '\n'
    ("TRANSCRIPTION:".toList :: tLines ++ "ANSWERS:".toList :: ps.map mkAnswerLine)

theorem mkAnswerLine_no_nl (p : AnswerSpec) (hn : atoi p.numStr = some (p.idx : Int))
    (ht : '\n' ∉ p.text) : '\n' ∉ mkAnswerLine p := by
  unfold mkAnswerLine
  intro hmem
  simp only [List.mem_append] at hmem
  rcases hmem with ((h1 | h2) | h3) | h4
  · exact absurd h1 (by decide)
  · exact atoi_no_nl hn h2
  · exact absurd h3 (by decide)
  · exact ht h4

/-- C1: for every reply of the canonical well-formed shape — a TRANSCRIPTION:
marker line, transcription lines, an ANSWERS: marker, and N Answer-k lines with
each index between 1 and the number of question identifiers and no duplicate
index — parseTranscriptionAndAnswers returns the newline-joined non-empty
(trimmed) transcription lines together with a map holding exactly those N keys:
the identifier at position k-1 for each index k, bound to the trailing text
trimmed of surrounding whitespace.  The question identifiers are assumed
pairwise distinct, as database primary keys are. -/
theorem parse_wellformed_reply (questionIDs : List GoStr)
    (tLines : List GoStr) (ps : List AnswerSpec)
    (hq : questionIDs.Nodup)
    (ht : ∀ t ∈ tLines, '\n' ∉ t
        ∧ ("TRANSCRIPTION:".toList).isPrefixOf (trimSpace t) = false
        ∧ ("ANSWERS:".toList).isPrefixOf (trimSpace t) = false)
    (hp : ∀ p ∈ ps, atoi p.numStr = some (p.idx : Int)
        ∧ 1 ≤ p.idx ∧ p.idx ≤ questionIDs.length ∧ '\n' ∉ p.text)
    (hnd : (ps.map AnswerSpec.idx).Nodup) :
    parseTranscriptionAndAnswers (mkReply tLines ps) questionIDs
      = (joinLines '\n' ((tLines.map trimSpace).filter (fun l => !l.isEmpty)),
         ps.map (fun p => (questionIDs.getD (p.idx - 1) [], trimSpace p.text))) := by
  have hlines : splitOnChar '\n' (mkReply tLines ps)
      = "TRANSCRIPTION:".toList :: tLines
          ++ "ANSWERS:".toList :: ps.map mkAnswerLine := by
    unfold mkReply
    refine splitOnChar_joinLines ?_ (by simp)
    intro l hl
    rcases List.mem_append.mp hl with hl | hl
    · rcases List.mem_cons.mp hl with rfl | hl
      · decide
      · exact (ht l hl).1
    · rcases List.mem_cons.mp hl with rfl | hl
      · decide
      · rcases List.mem_map.mp hl with ⟨p, hp', rfl⟩
        exact mkAnswerLine_no_nl p (hp p hp').1 (hp p hp').2.2.2
  have e1 : parseStep questionIDs ⟨false, false, [], []⟩ ("TRANSCRIPTION:".toList)
      = (⟨true, false, [], []⟩ : ParseState) :=
    parseStep_transcription_marker_plain questionIDs ⟨false, false, [], []⟩
  have e2 : List.foldl (parseStep questionIDs) (⟨true, false, [], []⟩ : ParseState) tLines
      = ⟨true, false, List.foldl appendLine [] (tLines.map trimSpace), []⟩ :=
    foldl_capture_lines questionIDs tLines ⟨true, false, [], []⟩ rfl rfl
      (fun t ht' => ⟨(ht t ht').2.1, (ht t ht').2.2⟩)
  have e3 : parseStep questionIDs
      (⟨true, false, List.foldl appendLine [] (tLines.map trimSpace), []⟩ : ParseState)
      ("ANSWERS:".toList)
      = ⟨false, true, List.foldl appendLine [] (tLines.map trimSpace), []⟩ :=
    parseStep_answers_marker questionIDs _
  have e4 : List.foldl (parseStep questionIDs)
      (⟨false, true, List.foldl appendLine [] (tLines.map trimSpace), []⟩ : ParseState)
      (ps.map mkAnswerLine)
      = ⟨false, true, List.foldl appendLine [] (tLines.map trimSpace),
          List.foldl (insertAnswer questionIDs) [] ps⟩ :=
    foldl_answer_lines questionIDs ps _ rfl rfl
      (fun p hp' => ⟨(hp p hp').1, (hp p hp').2.1, (hp p hp').2.2.1⟩)
  have hkeys := answerKeys_nodup questionIDs hq ps hnd
    (fun p hp' => ⟨(hp p hp').2.1, (hp p hp').2.2.1⟩)
  have hkeys' : ((([] : List (GoStr × GoStr)) ++ ps.map
      (fun p => (questionIDs.getD (p.idx - 1) [], trimSpace p.text))).map
        Prod.fst).Nodup := hkeys
  have e5 := foldl_insertAnswer_append questionIDs ps [] hkeys'
  have e6 := foldl_appendLine (tLines.map trimSpace) []
  have hfilter : ((([] : GoStr) :: tLines.map trimSpace).filter
      (fun l => !l.isEmpty))
      = (tLines.map trimSpace).filter (fun l => !l.isEmpty) := by
    rw [List.filter_cons]
    rfl
  simp only [parseTranscriptionAndAnswers, hlines]
  rw [List.foldl_append, List.foldl_cons, List.foldl_cons, e1, e2, e3, e4, e5, e6,
    hfilter]
  rfl

/-- Witness for C1 at the specification's own example: questionIds q1, q2 and
the reply TRANSCRIPTION: / hello world / ANSWERS: / Answer 1: true /
Answer 2: 42. -/
theorem parse_wellformed_reply_witness :
    parseTranscriptionAndAnswers
      (mkReply ["hello world".toList]
        [⟨"1".toList, 1, "true".toList⟩, ⟨"2".toList, 2, "42".toList⟩])
      ["q1".toList, "q2".toList]
      = ("hello world".toList,
         [("q1".toList, "true".toList), ("q2".toList, "42".toList)]) := by
  have h := parse_wellformed_reply ["q1".toList, "q2".toList]
    ["hello world".toList]
    [⟨"1".toList, 1, "true".toList⟩, ⟨"2".toList, 2, "42".toList⟩]
    (by decide) (by decide) (by decide) (by decide)
  rw [h]
  rfl

/-- C9: the parser is pure and deterministic — it is a function of exactly the
reply text and the question identifier list (the Go method reads nothing from
its receiver), so parsing the same inputs twice gives identical results. -/
theorem parse_deterministic (responseText : GoStr) (questionIDs : List GoStr) :
    parseTranscriptionAndAnswers responseText questionIDs
      = parseTranscriptionAndAnswers responseText questionIDs := rfl

/-- Counterexample to C2 as stated: with question ids q1, q2 and the reply
ANSWERS: / Answer 1: a / Answer 1: b, the duplicate index 1 is not dropped and
q1 is not absent — the map holds q1 bound to the later value b (the second
assignment overwrites the first, src/unnamed/part_000:496). -/
theorem parse_duplicate_index_not_dropped :
    (parseTranscriptionAndAnswers ("ANSWERS:\nAnswer 1: a\nAnswer 1: b".toList)
      ["q1".toList, "q2".toList]).2
      = [("q1".toList, "b".toList)] := by
  decide

/-- C2 amended: an Answer line whose index is out of range (below 1 or above
the number of question identifiers) is silently dropped without error, adding
nothing to the AnswerSet; a duplicate index, however, is not dropped — the
later line overwrites the earlier one, so the identifier stays present bound
to the last value.  The parser never crashes in either case. -/
theorem parse_out_of_range_dropped (questionIDs : List GoStr)
    (numStr a : GoStr) (k : Int)
    (hatoi : atoi numStr = some k)
    (hoor : k < 1 ∨ (questionIDs.length : Int) < k)
    (ha : '\n' ∉ a) :
    parseTranscriptionAndAnswers
      ("ANSWERS:\n".toList ++ "Answer ".toList ++ numStr ++ ": ".toList ++ a)
      questionIDs = ([], []) := by
  have hnocol : ':' ∉ numStr := atoi_no_colon hatoi
  have hnempty : numStr ≠ [] := (atoi_chars hatoi).1
  have hnosp : ∀ c ∈ numStr, isSpace c = false := atoi_not_space hatoi
  have hsplitline : splitOnChar '\n'
      ("ANSWERS:\n".toList ++ "Answer ".toList ++ numStr ++ ": ".toList ++ a)
      = ["ANSWERS:".toList, "Answer ".toList ++ numStr ++ ": ".toList ++ a] := by
    have hshape : "ANSWERS:\n".toList ++ "Answer ".toList ++ numStr ++ ": ".toList ++ a
        = "ANSWERS:".toList ++ '\n' :: ("Answer ".toList ++ numStr ++ ": ".toList ++ a) := by
      simp [List.append_assoc]
    rw [hshape, splitOnChar_append '\n' ("ANSWERS:".toList) _ (by decide)]
    rw [splitOnChar_no_sep]
    intro hmem
    simp only [List.mem_append] at hmem
    rcases hmem with ((h1 | h2) | h3) | h4
    · exact absurd h1 (by decide)
    · exact atoi_no_nl hatoi h2
    · exact absurd h3 (by decide)
    · exact ha h4
  obtain ⟨rest, hline, hrest⟩ := trimSpace_answer_line numStr a
  have hmT : ("TRANSCRIPTION:".toList).isPrefixOf
      (("Answer ".toList ++ numStr) ++ ':' :: rest) = false :=
    markerT_not_prefix_ans ("nswer ".toList ++ numStr ++ ':' :: rest)
  have hmA : ("ANSWERS:".toList).isPrefixOf
      (("Answer ".toList ++ numStr) ++ ':' :: rest) = false :=
    markerA_not_prefix_ans ("swer ".toList ++ numStr ++ ':' :: rest)
  have hpre : ("Answer ".toList).isPrefixOf
      (("Answer ".toList ++ numStr) ++ ':' :: rest) = true :=
    isPrefixOf_append_self ("Answer ".toList) (numStr ++ ':' :: rest)
  have hsplit : splitN2 ':' (("Answer ".toList ++ numStr) ++ ':' :: rest)
      = ["Answer ".toList ++ numStr, rest] := by
    refine splitN2_append ':' ("Answer ".toList ++ numStr) rest ?_
    intro hmem
    rcases List.mem_append.mp hmem with hc | hc
    · exact absurd hc (by decide)
    · exact hnocol hc
  have hpre2 : ("Answer ".toList).isPrefixOf ("Answer ".toList ++ numStr) = true :=
    isPrefixOf_append_self ("Answer ".toList) numStr
  have hguard : ¬ ((0 : Int) < k ∧ k ≤ (questionIDs.length : Int)) := by
    rcases hoor with h | h
    · intro hc; omega
    · intro hc; omega
  simp only [parseTranscriptionAndAnswers, hsplitline]
  rw [List.foldl_cons, List.foldl_cons, List.foldl_nil, parseStep_answers_marker]
  simp only [parseStep, hline]
  rw [if_neg (fun h' => Bool.false_ne_true (hmT.symm.trans h'))]
  rw [if_neg (fun h' => Bool.false_ne_true (hmA.symm.trans h'))]
  simp only [Bool.false_eq_true, false_and, if_false]
  rw [if_pos ⟨trivial, hpre⟩]
  rw [hsplit]
  simp only [trimSpace_answer_head numStr hnempty hnosp, hpre2, if_true,
    trimPrefixOf_answer, trimSpace_cons_of_space ' ' numStr (by decide),
    trimSpace_eq_self hnosp, hatoi]
  rw [if_neg hguard]

/-- Witness for the amended C2 at the specification's example: Answer 99: x
with only two question ids adds no entry and the parser returns normally. -/
theorem parse_out_of_range_dropped_witness :
    parseTranscriptionAndAnswers
      ("ANSWERS:\n".toList ++ "Answer ".toList ++ "99".toList
        ++ ": ".toList ++ "x".toList)
      ["q1".toList, "q2".toList] = ([], []) :=
  parse_out_of_range_dropped ["q1".toList, "q2".toList] ("99".toList)
    ("x".toList) 99 (by decide) (by decide) (by decide)

/-! ### Invariants of the line loop -/

theorem mem_mapInsert (m : List (GoStr × GoStr)) (k v : GoStr) (p : GoStr × GoStr)
    (h : p ∈ mapInsert m k v) : p ∈ m ∨ p = (k, v) := by
  unfold mapInsert at h
  by_cases hc : (m.any fun q => q.1 == k) = true
  · rw [if_pos hc] at h
    rcases List.mem_map.mp h with ⟨q', hq', hEq⟩
    by_cases hk : (q'.1 == k) = true
    · rw [if_pos hk] at hEq
      right
      exact hEq.symm
    · rw [if_neg hk] at hEq
      left
      exact hEq ▸ hq'
  · rw [if_neg hc] at h
    rcases List.mem_append.mp h with h | h
    · left
      exact h
    · right
      simpa using h

theorem parseStep_no_answers (q : List GoStr) (st : ParseState) (raw : GoStr)
    (hA : ("ANSWERS:".toList).isPrefixOf (trimSpace raw) = false)
    (h1 : st.inAnswers = false) :
    (parseStep q st raw).inAnswers = false
      ∧ (parseStep q st raw).answers = st.answers := by
  obtain ⟨bT, bA, tr, ans⟩ := st
  replace h1 : bA = false := h1
  subst h1
  simp only [parseStep]
  by_cases hmT : ("TRANSCRIPTION:".toList).isPrefixOf (trimSpace raw) = true
  · rw [if_pos hmT]
    rcases hsp : splitN2 ':' (trimSpace raw) with - | ⟨a, rest⟩
    · exact ⟨rfl, rfl⟩
    · rcases rest with - | ⟨b, rest2⟩
      · exact ⟨rfl, rfl⟩
      · rcases rest2 with - | ⟨c, rest3⟩
        · exact ⟨rfl, rfl⟩
        · exact ⟨rfl, rfl⟩
  · rw [if_neg hmT]
    rw [if_neg (fun h' => Bool.false_ne_true (hA.symm.trans h'))]
    by_cases hcap : bT = true ∧ trimSpace raw ≠ []
    · rw [if_pos hcap]
      rw [if_neg (fun hc => Bool.false_ne_true hc.1)]
      exact ⟨rfl, rfl⟩
    · rw [if_neg hcap]
      rw [if_neg (fun hc => Bool.false_ne_true hc.1)]
      exact ⟨rfl, rfl⟩

theorem parseStep_no_transcription (q : List GoStr) (st : ParseState) (raw : GoStr)
    (hT : ("TRANSCRIPTION:".toList).isPrefixOf (trimSpace raw) = false)
    (h1 : st.inTranscription = false) :
    (parseStep q st raw).inTranscription = false
      ∧ (parseStep q st raw).transcription = st.transcription := by
  obtain ⟨bT, bA, tr, ans⟩ := st
  replace h1 : bT = false := h1
  subst h1
  simp only [parseStep]
  rw [if_neg (fun h' => Bool.false_ne_true (hT.symm.trans h'))]
  by_cases hmA : ("ANSWERS:".toList).isPrefixOf (trimSpace raw) = true
  · rw [if_pos hmA]
    exact ⟨rfl, rfl⟩
  · rw [if_neg hmA]
    simp only [Bool.false_eq_true, false_and, if_false]
    by_cases hans : bA = true ∧ ("Answer ".toList).isPrefixOf (trimSpace raw) = true
    · rw [if_pos hans]
      rcases hsp : splitN2 ':' (trimSpace raw) with - | ⟨a, rest⟩
      · exact ⟨rfl, rfl⟩
      · rcases rest with - | ⟨b, rest2⟩
        · exact ⟨rfl, rfl⟩
        · rcases rest2 with - | ⟨c, rest3⟩
          · dsimp only
            by_cases hpa : ("Answer ".toList).isPrefixOf (trimSpace a) = true
            · rw [if_pos hpa]
              rcases hat : atoi (trimSpace (trimPrefixOf ("Answer".toList) (trimSpace a)))
                with - | num
              · exact ⟨rfl, rfl⟩
              · dsimp only
                by_cases hg : 0 < num ∧ num ≤ (q.length : Int)
                · rw [if_pos hg]
                  rcases hq' : q.get? (num.toNat - 1) with - | qid
                  · exact ⟨rfl, rfl⟩
                  · exact ⟨rfl, rfl⟩
                · rw [if_neg hg]
                  exact ⟨rfl, rfl⟩
            · rw [if_neg hpa]
              exact ⟨rfl, rfl⟩
          · exact ⟨rfl, rfl⟩
    · rw [if_neg hans]
      exact ⟨rfl, rfl⟩

theorem parseStep_answers_cases (q : List GoStr) (st : ParseState) (raw : GoStr) :
    (parseStep q st raw).answers = st.answers
    ∨ ∃ n qid v, q.get? n = some qid
        ∧ (parseStep q st raw).answers = mapInsert st.answers qid v := by
  obtain ⟨bT, bA, tr, ans⟩ := st
  simp only [parseStep]
  by_cases hmT : ("TRANSCRIPTION:".toList).isPrefixOf (trimSpace raw) = true
  · rw [if_pos hmT]
    left
    rcases hsp : splitN2 ':' (trimSpace raw) with - | ⟨a, rest⟩
    · rfl
    · rcases rest with - | ⟨b, rest2⟩
      · rfl
      · rcases rest2 with - | ⟨c, rest3⟩
        · rfl
        · rfl
  · rw [if_neg hmT]
    by_cases hmA : ("ANSWERS:".toList).isPrefixOf (trimSpace raw) = true
    · rw [if_pos hmA]
      left
      rfl
    · rw [if_neg hmA]
      by_cases hcap : bT = true ∧ trimSpace raw ≠ []
      · rw [if_pos hcap]
        by_cases hans : bA = true ∧ ("Answer ".toList).isPrefixOf (trimSpace raw) = true
        · rw [if_pos hans]
          rcases hsp : splitN2 ':' (trimSpace raw) with - | ⟨a, rest⟩
          · left; rfl
          · rcases rest with - | ⟨b, rest2⟩
            · left; rfl
            · rcases rest2 with - | ⟨c, rest3⟩
              · dsimp only
                by_cases hpa : ("Answer ".toList).isPrefixOf (trimSpace a) = true
                · rw [if_pos hpa]
                  rcases hat : atoi (trimSpace (trimPrefixOf ("Answer".toList) (trimSpace a)))
                    with - | num
                  · left; rfl
                  · dsimp only
                    by_cases hg : 0 < num ∧ num ≤ (q.length : Int)
                    · rw [if_pos hg]
                      rcases hq' : q.get? (num.toNat - 1) with - | qid
                      · left; rfl
                      · right
                        exact ⟨num.toNat - 1, qid, trimSpace b, hq', rfl⟩
                    · rw [if_neg hg]; left; rfl
                · rw [if_neg hpa]; left; rfl
              · left; rfl
        · rw [if_neg hans]; left; rfl
      · rw [if_neg hcap]
        by_cases hans : bA = true ∧ ("Answer ".toList).isPrefixOf (trimSpace raw) = true
        · rw [if_pos hans]
          rcases hsp : splitN2 ':' (trimSpace raw) with - | ⟨a, rest⟩
          · left; rfl
          · rcases rest with - | ⟨b, rest2⟩
            · left; rfl
            · rcases rest2 with - | ⟨c, rest3⟩
              · dsimp only
                by_cases hpa : ("Answer ".toList).isPrefixOf (trimSpace a) = true
                · rw [if_pos hpa]
                  rcases hat : atoi (trimSpace (trimPrefixOf ("Answer".toList) (trimSpace a)))
                    with - | num
                  · left; rfl
                  · dsimp only
                    by_cases hg : 0 < num ∧ num ≤ (q.length : Int)
                    · rw [if_pos hg]
                      rcases hq' : q.get? (num.toNat - 1) with - | qid
                      · left; rfl
                      · right
                        exact ⟨num.toNat - 1, qid, trimSpace b, hq', rfl⟩
                    · rw [if_neg hg]; left; rfl
                · rw [if_neg hpa]; left; rfl
              · left; rfl
        · rw [if_neg hans]; left; rfl

theorem foldl_no_answers (q : List GoStr) (lines : List GoStr) :
    ∀ st : ParseState,
      (∀ l ∈ lines, ("ANSWERS:".toList).isPrefixOf (trimSpace l) = false) →
      st.inAnswers = false →
      (List.foldl (parseStep q) st lines).inAnswers = false
        ∧ (List.foldl (parseStep q) st lines).answers = st.answers := by
  induction lines with
  | nil => intro st h h1; exact ⟨h1, rfl⟩
  | cons l ls ih =>
    intro st h h1
    rw [List.foldl_cons]
    obtain ⟨ha1, ha2⟩ := parseStep_no_answers q st l (h l (List.mem_cons_self l ls)) h1
    obtain ⟨hb1, hb2⟩ := ih (parseStep q st l)
      (fun x hx => h x (List.mem_cons_of_mem l hx)) ha1
    exact ⟨hb1, hb2.trans ha2⟩

theorem foldl_no_transcription (q : List GoStr) (lines : List GoStr) :
    ∀ st : ParseState,
      (∀ l ∈ lines, ("TRANSCRIPTION:".toList).isPrefixOf (trimSpace l) = false) →
      st.inTranscription = false →
      (List.foldl (parseStep q) st lines).inTranscription = false
        ∧ (List.foldl (parseStep q) st lines).transcription = st.transcription := by
  induction lines with
  | nil => intro st h h1; exact ⟨h1, rfl⟩
  | cons l ls ih =>
    intro st h h1
    rw [List.foldl_cons]
    obtain ⟨ha1, ha2⟩ := parseStep_no_transcription q st l
      (h l (List.mem_cons_self l ls)) h1
    obtain ⟨hb1, hb2⟩ := ih (parseStep q st l)
      (fun x hx => h x (List.mem_cons_of_mem l hx)) ha1
    exact ⟨hb1, hb2.trans ha2⟩

/-- C7: a reply with no line whose trimmed form begins with the ANSWERS: marker
yields an empty AnswerSet (whatever transcription was captured), and a reply
with no line whose trimmed form begins with the TRANSCRIPTION: marker yields an
empty transcription string. -/
theorem parse_missing_markers :
    (∀ (responseText : GoStr) (questionIDs : List GoStr),
      (∀ l ∈ splitOnChar '\n' responseText,
        ("ANSWERS:".toList).isPrefixOf (trimSpace l) = false) →
      (parseTranscriptionAndAnswers responseText questionIDs).2 = [])
    ∧ (∀ (responseText : GoStr) (questionIDs : List GoStr),
      (∀ l ∈ splitOnChar '\n' responseText,
        ("TRANSCRIPTION:".toList).isPrefixOf (trimSpace l) = false) →
      (parseTranscriptionAndAnswers responseText questionIDs).1 = []) := by
  constructor
  · intro r q h
    simp only [parseTranscriptionAndAnswers]
    exact (foldl_no_answers q (splitOnChar '\n' r) ⟨false, false, [], []⟩ h rfl).2
  · intro r q h
    simp only [parseTranscriptionAndAnswers]
    exact (foldl_no_transcription q (splitOnChar '\n' r) ⟨false, false, [], []⟩ h rfl).2

/-- Witness for C7: a reply with only a TRANSCRIPTION: section has an empty
AnswerSet, and a reply with only an ANSWERS: section has an empty
transcription. -/
theorem parse_missing_markers_witness :
    (parseTranscriptionAndAnswers ("TRANSCRIPTION:\nhello".toList) ["q1".toList]).2 = []
    ∧ (parseTranscriptionAndAnswers ("ANSWERS:\nAnswer 1: yes".toList)
        ["q1".toList]).1 = [] :=
  ⟨parse_missing_markers.1 ("TRANSCRIPTION:\nhello".toList) ["q1".toList] (by decide),
   parse_missing_markers.2 ("ANSWERS:\nAnswer 1: yes".toList) ["q1".toList] (by decide)⟩

theorem foldl_answers_subset (q : List GoStr) (lines : List GoStr) :
    ∀ st : ParseState,
      (∀ kv ∈ st.answers, kv.1 ∈ q) →
      ∀ kv ∈ (List.foldl (parseStep q) st lines).answers, kv.1 ∈ q := by
  induction lines with
  | nil => intro st h kv hkv; exact h kv hkv
  | cons l ls ih =>
    intro st h kv hkv
    rw [List.foldl_cons] at hkv
    refine ih (parseStep q st l) ?_ kv hkv
    intro kv' hkv'
    rcases parseStep_answers_cases q st l with he | ⟨n, qid, v, hq', he⟩
    · rw [he] at hkv'
      exact h kv' hkv'
    · rw [he] at hkv'
      rcases mem_mapInsert st.answers qid v kv' hkv' with hm | hkv''
      · exact h kv' hm
      · rw [hkv'']
        exact List.get?_mem hq'

/-- C4: for every reply text and question identifier list, every key of the
returned AnswerSet is one of the supplied question identifiers — no key
outside the list ever appears. -/
theorem parse_keys_subset (responseText : GoStr) (questionIDs : List GoStr) :
    ∀ kv ∈ (parseTranscriptionAndAnswers responseText questionIDs).2,
      kv.1 ∈ questionIDs := by
  intro kv hkv
  simp only [parseTranscriptionAndAnswers] at hkv
  exact foldl_answers_subset questionIDs (splitOnChar '\n' responseText)
    ⟨false, false, [], []⟩ (fun kv' hkv' => absurd hkv' (List.not_mem_nil kv'))
    kv hkv

/-- Witness for C4: the key parsed out of the sample reply is one of the
supplied identifiers. -/
theorem parse_keys_subset_witness :
    "q1".toList ∈ ["q1".toList, "q2".toList] :=
  parse_keys_subset ("ANSWERS:\nAnswer 1: yes".toList) ["q1".toList, "q2".toList]
    ("q1".toList, "yes".toList) (by decide)

/-- C10: when a later line also begins with the TRANSCRIPTION: marker, the
transcription accumulated so far is discarded: for any prefix of the reply,
the parsed transcription is exactly the last marker's trailing text followed
by the captured lines after it. -/
theorem parse_second_marker_resets (questionIDs : List GoStr)
    (pre : List GoStr) (tail : GoStr) (post : List GoStr)
    (hpre : ∀ l ∈ pre, '\n' ∉ l)
    (htail : '\n' ∉ tail)
    (hpost : ∀ l ∈ post, '\n' ∉ l
        ∧ ("TRANSCRIPTION:".toList).isPrefixOf (trimSpace l) = false
        ∧ ("ANSWERS:".toList).isPrefixOf (trimSpace l) = false) :
    (parseTranscriptionAndAnswers
        (joinLines '\n' (pre ++ ("TRANSCRIPTION:".toList ++ tail) :: post))
        questionIDs).1
      = joinLines '\n' ((trimSpace tail :: post.map trimSpace).filter
          (fun l => !l.isEmpty)) := by
  have hlines : splitOnChar '\n'
      (joinLines '\n' (pre ++ ("TRANSCRIPTION:".toList ++ tail) :: post))
      = pre ++ ("TRANSCRIPTION:".toList ++ tail) :: post := by
    refine splitOnChar_joinLines ?_ (by simp)
    intro l hl
    rcases List.mem_append.mp hl with hl | hl
    · exact hpre l hl
    · rcases List.mem_cons.mp hl with rfl | hl
      · intro hmem
        rcases List.mem_append.mp hmem with h1 | h2
        · exact absurd h1 (by decide)
        · exact htail h2
      · exact (hpost l hl).1
  simp only [parseTranscriptionAndAnswers, hlines]
  rw [List.foldl_append, List.foldl_cons]
  rw [parseStep_transcription_marker questionIDs
    (List.foldl (parseStep questionIDs) ⟨false, false, [], []⟩ pre) tail]
  rw [foldl_capture_lines questionIDs post
    { List.foldl (parseStep questionIDs) ⟨false, false, [], []⟩ pre with
        inTranscription := true, inAnswers := false, transcription := trimSpace tail }
    rfl rfl (fun l hl => ⟨(hpost l hl).2.1, (hpost l hl).2.2⟩)]
  rw [foldl_appendLine (post.map trimSpace) (trimSpace tail)]

/-- Witness for C10: a reply whose transcription section is restarted by a
second TRANSCRIPTION: marker keeps only the text after the second marker. -/
theorem parse_second_marker_resets_witness :
    (parseTranscriptionAndAnswers
        (joinLines '\n' (["TRANSCRIPTION:".toList, "old text".toList]
          ++ ("TRANSCRIPTION:".toList ++ " new".toList) :: ["more".toList]))
        ["q1".toList]).1
      = "new\nmore".toList := by
  have h := parse_second_marker_resets ["q1".toList]
    ["TRANSCRIPTION:".toList, "old text".toList] (" new".toList) ["more".toList]
    (by decide) (by decide) (by decide)
  rw [h]
  decide

/-! ### The pipeline orchestrator

ProcessCall is embedded as a pure function of an environment record that
supplies the outcome of every external effect: the database connection, the
two database reads, the HTTP fetch of the recording, the two possible Gemini
calls, the persistence write, and the clock.  Each effect is consumed at most
once per invocation, matching the straight-line Go code. -/

/-- The columns of the call_logs row that ProcessCall consults
(src/unnamed/part_000:140-171); the remaining columns never influence the
control flow. -/
structure CallData where
  id : String
  recordingURL : String
  campaignID : String
deriving DecidableEq

/-- A question row as loaded by GetQuestionsForCampaign
(src/unnamed/part_000:174-221). -/
structure Question where
  id : GoStr
  questionText : String
  answerType : String
  instructions : String
  isActive : Bool
deriving DecidableEq

/-- One part of a Gemini candidate (named GPart because Part is taken). -/
structure GPart where
  text : GoStr
deriving DecidableEq

structure GContent where
  parts : List GPart
deriving DecidableEq

structure GCandidate where
  content : GContent
deriving DecidableEq

structure GeminiResponse where
  candidates : List GCandidate
deriving DecidableEq

/-- An HTTP response as seen by DownloadAudio: the status code and the outcome
of reading the body (io.ReadAll may itself fail). -/
structure HTTPResponse where
  statusCode : Nat
  body : Except String (List UInt8)

/-- DownloadAudio (src/unnamed/part_000:224-241): fail on transport error or a
non-200 status, otherwise return whatever bytes the body held — the empty body
is returned as a success. -/
def DownloadAudio (fetchResult : Except String HTTPResponse) :
    Except String (List UInt8) :=
  match fetchResult with
  | .error e => .error ("error downloading audio: " ++ e)
  | .ok resp =>
    if resp.statusCode ≠ 200 then
      .error ("error downloading audio: status " ++ toString resp.statusCode)
    else
      match resp.body with
      | .error e => .error ("error reading audio data: " ++ e)
      | .ok audioData => .ok audioData

/-- TranscribeAudioOnly (src/unnamed/part_000:244-319).  The transport, status
and JSON-decode failures are folded into the error case of the API outcome;
the candidate, parts and empty-text checks are the source's own. -/
def TranscribeAudioOnly (apiResult : Except String GeminiResponse) :
    Except String GoStr :=
  match apiResult with
  | .error e => .error e
  | .ok resp =>
    match resp.candidates with
    | [] => .error "no response generated from Gemini API"
    | c :: _ =>
      match c.content.parts with
      | [] => .error "no content parts in Gemini response"
      | p :: _ =>
        if p.text = [] then .error "empty transcription received from Gemini API"
        else .ok p.text

/-- ProcessAudioWithGemini (src/unnamed/part_000:322-448): the same response
checks, then the parser applied to the reply text and the question ids in
loader order. -/
def ProcessAudioWithGemini (apiResult : Except String GeminiResponse)
    (questions : List Question) :
    Except String (GoStr × List (GoStr × GoStr)) :=
  match apiResult with
  | .error e => .error e
  | .ok resp =>
    match resp.candidates with
    | [] => .error "no response generated from Gemini API"
    | c :: _ =>
      match c.content.parts with
      | [] => .error "no content parts in Gemini response"
      | p :: _ =>
        if p.text = [] then .error "empty response received from Gemini API"
        else .ok (parseTranscriptionAndAnswers p.text (questions.map Question.id))

/-- The outcomes of the external effects consumed by one ProcessCall
invocation. -/
structure Env where
  connect : Except String Unit
  getCallData : String → Except String CallData
  getQuestionsForCampaign : String → Except String (List Question)
  fetch : String → Except String HTTPResponse
  transcribeAPI : Except String GeminiResponse
  answerAPI : Except String GeminiResponse
  save : Except String Unit
  now : String

/-- One attempted SaveCallAnalysis write (src/unnamed/part_000:507-534). -/
structure SaveRec where
  callLogsID : String
  transcription : GoStr
  answers : List (GoStr × GoStr)
deriving DecidableEq

/-- The success value of ProcessCall (src/unnamed/part_000:599-605). -/
structure PipelineResult where
  callLogsID : String
  campaignId : String
  transcription : GoStr
  answers : List (GoStr × GoStr)
  processedAt : String
deriving DecidableEq

/-- ProcessCall (src/unnamed/part_000:537-608).  The second component lists
the SaveCallAnalysis calls the run attempted, in order. -/
def ProcessCall (env : Env) (callLogsID : String) :
    Except String PipelineResult × List SaveRec :=
  match env.connect with
  | .error e => (.error ("failed to connect to database: " ++ e), [])
  | .ok _ =>
  match env.getCallData callLogsID with
  | .error e => (.error ("failed to get call data: " ++ e), [])
  | .ok callData =>
  if callData.recordingURL = "" then
    (.error "no recording URL found for this call", [])
  else if callData.campaignID = "" then
    (.error "no campaign ID found for this call", [])
  else
  match env.getQuestionsForCampaign callData.campaignID with
  | .error e => (.error ("failed to get questions for campaign: " ++ e), [])
  | .ok questions =>
  match DownloadAudio (env.fetch callData.recordingURL) with
  | .error e => (.error ("failed to download audio: " ++ e), [])
  | .ok audioContent =>
  if audioContent.length = 0 then
    (.error "downloaded audio file is empty", [])
  else
    let step : Except String (GoStr × List (GoStr × GoStr)) :=
      if questions.length = 0 then
        match TranscribeAudioOnly env.transcribeAPI with
        | .error e => .error ("failed to transcribe audio: " ++ e)
        | .ok t => .ok (t, [])
      else
        match ProcessAudioWithGemini env.answerAPI questions with
        | .error e => .error ("failed to process audio: " ++ e)
        | .ok r => .ok r
    match step with
    | .error e => (.error e, [])
    | .ok (transcription, answers) =>
      match env.save with
      | .error e => (.error ("failed to save call analysis: " ++ e),
          [⟨callLogsID, transcription, answers⟩])
      | .ok _ =>
        (.ok ⟨callLogsID, callData.campaignID, transcription, answers, env.now⟩,
         [⟨callLogsID, transcription, answers⟩])

/-- Counterexample to C3 as stated: a fetch that succeeds with status 200 and a
zero-length body makes DownloadAudio return the empty byte list as a success,
not an error — the Audio Fetcher itself accepts the empty payload. -/
theorem downloadAudio_empty_body_ok :
    DownloadAudio (Except.ok ⟨200, Except.ok []⟩) = Except.ok [] := rfl

/-- C3 amended: DownloadAudio returns a zero-length body without error; the
explicit empty-payload rejection happens in ProcessCall immediately after the
download — on an empty 200-response the pipeline fails with the dedicated
message and attempts no persistence. -/
theorem processCall_empty_audio_fails (env : Env) (id : String) (cd : CallData)
    (questions : List Question)
    (h1 : env.connect = .ok ())
    (h2 : env.getCallData id = .ok cd)
    (h3 : cd.recordingURL ≠ "")
    (h4 : cd.campaignID ≠ "")
    (h5 : env.getQuestionsForCampaign cd.campaignID = .ok questions)
    (h6 : env.fetch cd.recordingURL = .ok ⟨200, .ok []⟩) :
    ProcessCall env id = (.error "downloaded audio file is empty", []) := by
  have hda : DownloadAudio (Except.ok ⟨200, Except.ok []⟩)
      = Except.ok ([] : List UInt8) := rfl
  simp only [ProcessCall, h1, h2]
  rw [if_neg h3, if_neg h4]
  simp only [h5, h6, hda]
  rfl

/-- Witness for the amended C3: a concrete environment whose fetch returns an
empty 200 body makes the pipeline fail before persisting anything, while
DownloadAudio alone reports success. -/
theorem processCall_empty_audio_fails_witness :
    ProcessCall
      ⟨Except.ok (), fun _ => Except.ok ⟨"c1", "http:u", "camp1"⟩,
       fun _ => Except.ok [], fun _ => Except.ok ⟨200, Except.ok []⟩,
       Except.error "unused", Except.error "unused", Except.ok (), "t0"⟩
      "c1" = (.error "downloaded audio file is empty", []) := by
  exact processCall_empty_audio_fails _ "c1" ⟨"c1", "http:u", "camp1"⟩ []
    rfl rfl (by decide) (by decide) rfl rfl

/-- C5: when the loaded call record has an empty recording URL or an empty
campaign identifier, ProcessCall fails with the corresponding
missing-prerequisite error, attempts no persistence, and its outcome does not
depend on any of the later-step effects: any environment agreeing on the
connection and the call load produces the identical result, so no question
load, download, AI call or write is ever consulted. -/
theorem processCall_missing_prereq (env1 env2 : Env) (id : String) (cd : CallData)
    (h1 : env1.connect = .ok ()) (h2 : env1.getCallData id = .ok cd)
    (h1' : env2.connect = .ok ()) (h2' : env2.getCallData id = .ok cd)
    (hmp : cd.recordingURL = "" ∨ cd.campaignID = "") :
    ProcessCall env1 id
        = (.error (if cd.recordingURL = "" then "no recording URL found for this call"
            else "no campaign ID found for this call"), [])
      ∧ ProcessCall env1 id = ProcessCall env2 id := by
  have key : ∀ env : Env, env.connect = .ok () → env.getCallData id = .ok cd →
      ProcessCall env id
        = (.error (if cd.recordingURL = "" then "no recording URL found for this call"
            else "no campaign ID found for this call"), []) := by
    intro env hc hg
    simp only [ProcessCall, hc, hg]
    rcases hmp with h | h
    · rw [if_pos h, if_pos h]
    · by_cases hurl : cd.recordingURL = ""
      · rw [if_pos hurl, if_pos hurl]
      · rw [if_neg hurl, if_pos h, if_neg hurl]
  exact ⟨key env1 h1 h2, (key env1 h1 h2).trans (key env2 h1' h2').symm⟩

/-- Witness for C5: a record with an empty recording URL fails with the
missing-prerequisite error and no persistence, and the result is identical
under a second environment whose later-step effects all differ. -/
theorem processCall_missing_prereq_witness :
    ProcessCall
        ⟨Except.ok (), fun _ => Except.ok ⟨"c1", "", "camp1"⟩,
         fun _ => Except.ok [], fun _ => Except.error "transport down",
         Except.error "unused", Except.error "unused", Except.ok (), "t0"⟩
        "c1" = (.error "no recording URL found for this call", [])
      ∧ ProcessCall
          ⟨Except.ok (), fun _ => Except.ok ⟨"c1", "", "camp1"⟩,
           fun _ => Except.ok [], fun _ => Except.error "transport down",
           Except.error "unused", Except.error "unused", Except.ok (), "t0"⟩
          "c1"
        = ProcessCall
            ⟨Except.ok (), fun _ => Except.ok ⟨"c1", "", "camp1"⟩,
             fun _ => Except.error "db gone", fun _ => Except.ok ⟨200, Except.ok [7]⟩,
             Except.error "other", Except.error "other", Except.error "wfail", "t9"⟩
            "c1" := by
  have h := processCall_missing_prereq
    ⟨Except.ok (), fun _ => Except.ok ⟨"c1", "", "camp1"⟩,
     fun _ => Except.ok [], fun _ => Except.error "transport down",
     Except.error "unused", Except.error "unused", Except.ok (), "t0"⟩
    ⟨Except.ok (), fun _ => Except.ok ⟨"c1", "", "camp1"⟩,
     fun _ => Except.error "db gone", fun _ => Except.ok ⟨200, Except.ok [7]⟩,
     Except.error "other", Except.error "other", Except.error "wfail", "t9"⟩
    "c1" ⟨"c1", "", "camp1"⟩ rfl rfl rfl rfl (Or.inl rfl)
  exact ⟨h.1, h.2⟩

/-- C6: when the loaded question list is empty the pipeline takes the
transcribe-only path — the result and the single persisted record carry the
empty AnswerSet, and the whole outcome is independent of the
transcribe-and-answer endpoint: any environment agreeing on every effect
except that endpoint produces the identical result, whatever that reply
would have contained. -/
theorem processCall_no_questions_transcribe_only
    (env1 env2 : Env) (id : String) (cd : CallData) (body : List UInt8) (t : GoStr)
    (h1 : env1.connect = .ok ()) (h2 : env1.getCallData id = .ok cd)
    (h3 : cd.recordingURL ≠ "") (h4 : cd.campaignID ≠ "")
    (h5 : env1.getQuestionsForCampaign cd.campaignID = .ok [])
    (h6 : env1.fetch cd.recordingURL = .ok ⟨200, .ok body⟩)
    (h7 : body ≠ [])
    (h8 : TranscribeAudioOnly env1.transcribeAPI = .ok t)
    (h9 : env1.save = .ok ())
    (heq1 : env2.connect = env1.connect)
    (heq2 : env2.getCallData = env1.getCallData)
    (heq3 : env2.getQuestionsForCampaign = env1.getQuestionsForCampaign)
    (heq4 : env2.fetch = env1.fetch)
    (heq5 : env2.transcribeAPI = env1.transcribeAPI)
    (heq6 : env2.save = env1.save)
    (heq7 : env2.now = env1.now) :
    ProcessCall env1 id
        = (.ok ⟨id, cd.campaignID, t, [], env1.now⟩, [⟨id, t, []⟩])
      ∧ ProcessCall env2 id = ProcessCall env1 id := by
  have key : ∀ env : Env, env.connect = .ok () → env.getCallData id = .ok cd →
      env.getQuestionsForCampaign cd.campaignID = .ok [] →
      env.fetch cd.recordingURL = .ok ⟨200, .ok body⟩ →
      TranscribeAudioOnly env.transcribeAPI = .ok t →
      env.save = .ok () → env.now = env1.now →
      ProcessCall env id = (.ok ⟨id, cd.campaignID, t, [], env1.now⟩, [⟨id, t, []⟩]) := by
    intro env hc hg hq hf ht hs hn
    have hda : DownloadAudio (Except.ok ⟨200, Except.ok body⟩)
        = Except.ok body := by
      simp [DownloadAudio]
    simp only [ProcessCall, hc, hg]
    rw [if_neg h3, if_neg h4]
    simp only [hq, hf, hda]
    rw [if_neg (fun hlen => h7 (List.length_eq_zero.mp hlen))]
    simp only [List.length_nil, ht, hs, hn, if_true]
  constructor
  · exact key env1 h1 h2 h5 h6 h8 h9 rfl
  · have h1' : env2.connect = .ok () := heq1.trans h1
    have h2' : env2.getCallData id = .ok cd := by rw [heq2]; exact h2
    have h5' : env2.getQuestionsForCampaign cd.campaignID = .ok [] := by
      rw [heq3]; exact h5
    have h6' : env2.fetch cd.recordingURL = .ok ⟨200, .ok body⟩ := by
      rw [heq4]; exact h6
    have h8' : TranscribeAudioOnly env2.transcribeAPI = .ok t := by
      rw [heq5]; exact h8
    have h9' : env2.save = .ok () := heq6.trans h9
    exact (key env2 h1' h2' h5' h6' h8' h9' heq7).trans
      (key env1 h1 h2 h5 h6 h8 h9 rfl).symm

/-- Witness for C6: with no questions, two environments differing only in the
transcribe-and-answer endpoint persist the same empty AnswerSet. -/
theorem processCall_no_questions_transcribe_only_witness :
    ProcessCall
        ⟨Except.ok (), fun _ => Except.ok ⟨"c1", "http:u", "camp1"⟩,
         fun _ => Except.ok [], fun _ => Except.ok ⟨200, Except.ok [7]⟩,
         Except.ok ⟨[⟨⟨[⟨"hi".toList⟩]⟩⟩]⟩, Except.error "ignored", Except.ok (), "t0"⟩
        "c1"
      = (.ok ⟨"c1", "camp1", "hi".toList, [], "t0"⟩, [⟨"c1", "hi".toList, []⟩]) := by
  have h := processCall_no_questions_transcribe_only
    ⟨Except.ok (), fun _ => Except.ok ⟨"c1", "http:u", "camp1"⟩,
     fun _ => Except.ok [], fun _ => Except.ok ⟨200, Except.ok [7]⟩,
     Except.ok ⟨[⟨⟨[⟨"hi".toList⟩]⟩⟩]⟩, Except.error "ignored", Except.ok (), "t0"⟩
    ⟨Except.ok (), fun _ => Except.ok ⟨"c1", "http:u", "camp1"⟩,
     fun _ => Except.ok [], fun _ => Except.ok ⟨200, Except.ok [7]⟩,
     Except.ok ⟨[⟨⟨[⟨"hi".toList⟩]⟩⟩]⟩,
     Except.ok ⟨[⟨⟨[⟨"TRANSCRIPTION: x\nANSWERS:\nAnswer 1: y".toList⟩]⟩⟩]⟩,
     Except.ok (), "t0"⟩
    "c1" ⟨"c1", "http:u", "camp1"⟩ [7] ("hi".toList)
    rfl rfl (by decide) (by decide) rfl rfl (by decide) rfl rfl
    rfl rfl rfl rfl rfl rfl rfl
  exact h.1

/-- C8: every failure before the persistence step aborts the whole pipeline
immediately with that step's wrapped error and SaveCallAnalysis is never
invoked — no partial persistence, no retry.  One conjunct per failing step:
database connection, call-record load, question load, audio download, the
empty-audio check, the transcribe-only AI call, and the transcribe-and-answer
AI call. -/
theorem processCall_step_failure_aborts :
    (∀ (env : Env) (id e : String), env.connect = Except.error e →
      ProcessCall env id = (.error ("failed to connect to database: " ++ e), []))
  ∧ (∀ (env : Env) (id e : String), env.connect = .ok () →
      env.getCallData id = .error e →
      ProcessCall env id = (.error ("failed to get call data: " ++ e), []))
  ∧ (∀ (env : Env) (id e : String) (cd : CallData), env.connect = .ok () →
      env.getCallData id = .ok cd → cd.recordingURL ≠ "" → cd.campaignID ≠ "" →
      env.getQuestionsForCampaign cd.campaignID = .error e →
      ProcessCall env id
        = (.error ("failed to get questions for campaign: " ++ e), []))
  ∧ (∀ (env : Env) (id e : String) (cd : CallData) (questions : List Question),
      env.connect = .ok () → env.getCallData id = .ok cd →
      cd.recordingURL ≠ "" → cd.campaignID ≠ "" →
      env.getQuestionsForCampaign cd.campaignID = .ok questions →
      DownloadAudio (env.fetch cd.recordingURL) = .error e →
      ProcessCall env id = (.error ("failed to download audio: " ++ e), []))
  ∧ (∀ (env : Env) (id : String) (cd : CallData) (questions : List Question),
      env.connect = .ok () → env.getCallData id = .ok cd →
      cd.recordingURL ≠ "" → cd.campaignID ≠ "" →
      env.getQuestionsForCampaign cd.campaignID = .ok questions →
      DownloadAudio (env.fetch cd.recordingURL) = .ok [] →
      ProcessCall env id = (.error "downloaded audio file is empty", []))
  ∧ (∀ (env : Env) (id e : String) (cd : CallData) (body : List UInt8),
      env.connect = .ok () → env.getCallData id = .ok cd →
      cd.recordingURL ≠ "" → cd.campaignID ≠ "" →
      env.getQuestionsForCampaign cd.campaignID = .ok [] →
      DownloadAudio (env.fetch cd.recordingURL) = .ok body → body ≠ [] →
      TranscribeAudioOnly env.transcribeAPI = .error e →
      ProcessCall env id = (.error ("failed to transcribe audio: " ++ e), []))
  ∧ (∀ (env : Env) (id e : String) (cd : CallData) (q0 : Question)
        (qs : List Question) (body : List UInt8),
      env.connect = .ok () → env.getCallData id = .ok cd →
      cd.recordingURL ≠ "" → cd.campaignID ≠ "" →
      env.getQuestionsForCampaign cd.campaignID = .ok (q0 :: qs) →
      DownloadAudio (env.fetch cd.recordingURL) = .ok body → body ≠ [] →
      ProcessAudioWithGemini env.answerAPI (q0 :: qs) = .error e →
      ProcessCall env id = (.error ("failed to process audio: " ++ e), [])) := by
  refine ⟨?_, ?_, ?_, ?_, ?_, ?_, ?_⟩
  · intro env id e h
    simp only [ProcessCall, h]
  · intro env id e h1 h2
    simp only [ProcessCall, h1, h2]
  · intro env id e cd h1 h2 h3 h4 h5
    simp only [ProcessCall, h1, h2]
    rw [if_neg h3, if_neg h4]
    simp only [h5]
  · intro env id e cd questions h1 h2 h3 h4 h5 h6
    simp only [ProcessCall, h1, h2]
    rw [if_neg h3, if_neg h4]
    simp only [h5, h6]
  · intro env id cd questions h1 h2 h3 h4 h5 h6
    simp only [ProcessCall, h1, h2]
    rw [if_neg h3, if_neg h4]
    simp only [h5, h6]
    rfl
  · intro env id e cd body h1 h2 h3 h4 h5 h6 h7 h8
    simp only [ProcessCall, h1, h2]
    rw [if_neg h3, if_neg h4]
    simp only [h5, h6]
    rw [if_neg (fun hlen => h7 (List.length_eq_zero.mp hlen))]
    simp only [List.length_nil, if_true, h8]
  · intro env id e cd q0 qs body h1 h2 h3 h4 h5 h6 h7 h8
    simp only [ProcessCall, h1, h2]
    rw [if_neg h3, if_neg h4]
    simp only [h5, h6]
    rw [if_neg (fun hlen => h7 (List.length_eq_zero.mp hlen))]
    rw [if_neg (by simp)]
    simp only [h8]

/-- Witness for C8 at the first step: a concrete environment whose database
connection fails makes the pipeline abort with the wrapped connection error
and an empty list of attempted writes. -/
theorem processCall_step_failure_aborts_witness :
    ProcessCall
      ⟨Except.error "boom", fun _ => Except.ok ⟨"c1", "http:u", "camp1"⟩,
       fun _ => Except.ok [], fun _ => Except.ok ⟨200, Except.ok [7]⟩,
       Except.error "unused", Except.error "unused", Except.ok (), "t0"⟩
      "c1" = (.error "failed to connect to database: boom", []) :=
  processCall_step_failure_aborts.1
    ⟨Except.error "boom", fun _ => Except.ok ⟨"c1", "http:u", "camp1"⟩,
     fun _ => Except.ok [], fun _ => Except.ok ⟨200, Except.ok [7]⟩,
     Except.error "unused", Except.error "unused", Except.ok (), "t0"⟩
    "c1" "boom" rfl
